import Mathlib

/-!
# Verification of `abelian_lie_conformal_algebra.py`

Shallow embedding of `AbelianLieConformalAlgebra` from
`src/sage/algebras/lie_conformal_algebras/abelian_lie_conformal_algebra.py`.

The file under `src/` contains only `__init__` and `_repr_`.  The two
collaborators it calls — `standardize_names_index_set` (from
`sage.structure.indexed_generators`) and `GradedLieConformalAlgebra.__init__`
(from `graded_lie_conformal_algebra.py`) — are code of this repository that is
not under `src/`; they are modelled from the specification where needed, and
every such definition carries a doc comment starting `Modelled from the spec:`.

Machine-level conventions of the embedding:
* Python `None` becomes `Option.none`; a raised exception becomes `Except.error`.
* Generator names, index labels and the base ring textual form are `String`s.
* The structure-constant dict is an association list from ordered generator
  pairs to bracket-expansion data (lists of monomial-coefficient pairs); the
  Abelian builder always passes the empty dict `abeliandict = \x7b\x7d`.
* Weights are rationals (`ℚ`), parity bits are `Nat`.
-/

/-- The `names` argument of the constructor as it reaches
`standardize_names_index_set`: either a single string name stem (as in
`names = "a"`) or an explicit tuple of name strings. -/
inductive NamesInput where
  | stem : String → NamesInput
  | list : List String → NamesInput
deriving DecidableEq

/-- Modelled from the spec: the single validation-error class raised by the
standardization collaborator (`InconsistentGeneratorSpecification`), carrying
a message, "raised by the standardization collaborator when `names`,
`indexSet`, and `ngens` disagree in cardinality or contain duplicate
identifiers". -/
inductive StdErr where
  | inconsistent : String → StdErr
deriving DecidableEq

/-- Duplicate detection over a list of identifiers, mirroring the
"contain duplicate identifiers" clause of the standardization contract. -/
def hasDup : List String → Bool
  | [] => false
  | x :: xs => xs.contains x || hasDup xs

/-- Expansion of a single name stem into `ngens` generator names: one
generator keeps the bare stem, several get the stem with appended indices
`0 .. ngens-1` (the doctests in the source show `(a,)` for one generator and
`(a0, a1)` for two). -/
def expandStem (s : String) (ngens : Nat) : List String :=
  if ngens = 1 then [s] else (List.range ngens).map fun i => s ++ toString i

/-- Modelled from the spec: the name/index-set standardization collaborator
`standardize_names_index_set(names, index_set, ngens)` from
`sage.structure.indexed_generators`, which is not under `src/`.  Contract from
the spec: "given any valid combination of `names` (string, tuple, or None) and
`indexSet` (enumerated collection or None) plus `ngens`, returns a consistent
pair where every generator has exactly one name and one index, raising a
validation error if the supplied names/indices are inconsistent in count or
contain duplicates". -/
def standardize_names_index_set (names : Option NamesInput)
    (index_set : Option (List String)) (ngens : Nat) :
    Except StdErr (List String × List String) :=
  match names with
  | some (NamesInput.stem s) =>
      let ns := expandStem s ngens
      match index_set with
      | none => Except.ok (ns, ns)
      | some iset =>
          if iset.length ≠ ns.length || hasDup iset then
            Except.error (StdErr.inconsistent "names and index set are inconsistent")
          else Except.ok (ns, iset)
  | some (NamesInput.list l) =>
      if l.length ≠ ngens || hasDup l then
        Except.error (StdErr.inconsistent "the number of names must equal the number of generators")
      else
        match index_set with
        | none => Except.ok (l, l)
        | some iset =>
            if iset.length ≠ l.length || hasDup iset then
              Except.error (StdErr.inconsistent "names and index set are inconsistent")
            else Except.ok (l, iset)
  | none =>
      match index_set with
      | some iset =>
          if iset.length ≠ ngens || hasDup iset then
            Except.error (StdErr.inconsistent "the index set does not match the number of generators")
          else Except.ok (iset, iset)
      | none =>
          Except.error (StdErr.inconsistent "either names or index set must be specified")

/-- The state of a constructed graded Lie conformal algebra object: the data
the base constructor receives and stores, plus the display-label list the
Abelian builder assigns to `self._latex_names`. -/
structure LCAState where
  baseRing : String
  scTable : List ((String × String) × List (Nat × Int))
  gens : List String
  indexSet : List String
  weights : List ℚ
  parity : Option (List Nat)
  centralElts : List String
  latexNames : Option (List String)
deriving DecidableEq

/-- Modelled from the spec: the base collaborator
`GradedLieConformalAlgebra.__init__` (not under `src/`), consumed as an
opaque, already-correct dependency: it stores the base ring, the
structure-constant table, the canonical names/index set, the weights
("default 1 for every generator if omitted"), the parity and the central
elements (the Abelian builder leaves that argument at its empty default). -/
def GradedLieConformalAlgebra_init (R : String)
    (s_coeff : List ((String × String) × List (Nat × Int)))
    (names : List String) (index_set : List String)
    (weights : Option (List ℚ)) (parity : Option (List Nat))
    (central_elements : List String) (latex_names : Option (List String)) :
    LCAState :=
  { baseRing := R
    scTable := s_coeff
    gens := names
    indexSet := index_set
    weights := match weights with
               | none => List.replicate names.length 1
               | some w => w
    parity := parity
    centralElts := central_elements
    latexNames := latex_names }

/-- The arguments of `AbelianLieConformalAlgebra.__init__` with their Python
defaults (`ngens=1`, everything else `None`). -/
structure BuildArgs where
  R : String
  ngens : Nat := 1
  weights : Option (List ℚ) := none
  parity : Option (List Nat) := none
  names : Option NamesInput := none
  index_set : Option (List String) := none
deriving DecidableEq

/-- The default-name branch of `__init__` (source lines 93–95): when `names`
and `index_set` are both `None`, set `names = "a"` and
`self._latex_names = tuple("a_\x7b%d\x7d" % i for i in range(ngens))`; otherwise
leave `names` as supplied and assign no display labels in this component.
Returns the `names` value passed on to standardization and the display-label
assignment. -/
def defaultNameStep (args : BuildArgs) :
    Option NamesInput × Option (List String) :=
  if args.names = none ∧ args.index_set = none then
    (some (NamesInput.stem "a"),
     some ((List.range args.ngens).map fun i => "a_\x7b" ++ toString i ++ "\x7d"))
  else (args.names, none)

/-- `AbelianLieConformalAlgebra.__init__` (source lines 79–100): apply the
default-name branch, standardize names and index set (propagating its error
unchanged), build the empty dict `abeliandict = \x7b\x7d`, and delegate to the
base constructor. -/
def AbelianLieConformalAlgebra_init (args : BuildArgs) :
    Except StdErr LCAState :=
  let nd := defaultNameStep args
  match standardize_names_index_set nd.1 args.index_set args.ngens with
  | Except.error e => Except.error e
  | Except.ok (names, index_set) =>
      let abeliandict : List ((String × String) × List (Nat × Int)) := []
      Except.ok (GradedLieConformalAlgebra_init args.R abeliandict names
        index_set args.weights args.parity [] nd.2)

/-- Modelled from the spec: the inherited accessor `structure_coefficients()`
returns the stored structure-constant table (as a finite family). -/
def structure_coefficients (s : LCAState) :
    List ((String × String) × List (Nat × Int)) :=
  s.scTable

/-- Modelled from the spec: the inherited accessor `central_elements()`
returns the stored family of distinguished central elements. -/
def central_elements (s : LCAState) : List String :=
  s.centralElts

/-- Lookup of an ordered generator pair in the structure-constant table. -/
def lookupPair (t : List ((String × String) × List (Nat × Int)))
    (a b : String) : Option (List (Nat × Int)) :=
  (t.find? fun p => p.1.1 == a && p.1.2 == b).map Prod.snd

/-- Modelled from the spec: the transformation the base class applies to a
present table entry to evaluate the bracket of formal derivatives `T^m a`,
`T^n b` from the entry for `(a, b)`; only its action on an absent entry is
specified ("no entry exists for any pair, which the base class interprets as
bracket is identically zero"), so a present entry is expanded schematically
with shifted orders and a sign. -/
def derivativeExpand (m n : Nat) (e : List (Nat × Int)) : List (Nat × Int) :=
  e.map fun kv => (kv.1 + m + n, kv.2 * (-1 : Int) ^ m)

/-- Modelled from the spec: the inherited bracket operation on formal
derivatives of generators, `bracket(T^m a, T^n b)`: look the ordered pair up
in the structure-constant table; an absent entry yields the zero element
(the empty expansion), a present one is expanded. -/
def bracket (s : LCAState) (m : Nat) (a : String) (n : Nat) (b : String) :
    List (Nat × Int) :=
  match lookupPair s.scTable a b with
  | none => []
  | some e => derivativeExpand m n e

/-- The textual form of a Python tuple of generators, as `_repr_` shows it:
`()` when empty, `(a,)` for one element, `(a0, a1)` otherwise. -/
def pyTupleRepr (l : List String) : String :=
  match l with
  | [] => "()"
  | [x] => "(" ++ x ++ ",)"
  | xs => "(" ++ String.intercalate ", " xs ++ ")"

/-- `AbelianLieConformalAlgebra._repr_` (source lines 102–112): the format
string `"The Abelian Lie conformal algebra with generators \x7b\x7d over \x7b\x7d"`
applied to `self.gens()` and `self.base_ring()`. -/
def AbelianLieConformalAlgebra_repr (s : LCAState) : String :=
  "The Abelian Lie conformal algebra with generators " ++ pyTupleRepr s.gens
    ++ " over " ++ s.baseRing

/-- The constructor in explicit state-passing form over an ambient program
state: the body of `__init__` (source lines 89–100) performs only local
computation and attribute assignments on the object under construction — it
contains no read or write of any global or shared state — so its embedding
threads the ambient state through unchanged. -/
def AbelianLieConformalAlgebra_init_withState (σ : Type) (g : σ)
    (args : BuildArgs) : σ × Except StdErr LCAState :=
  (g, AbelianLieConformalAlgebra_init args)

/-- Iteration count of the standardization collaborator: the loop expanding
the name stem (or scanning the supplied name tuple), plus the loop over the
index set (or the copy of the names when the index set is omitted). -/
def standardizeSteps (names : Option NamesInput) (index_set : Option (List String))
    (ngens : Nat) : Nat :=
  (match names with
   | some (NamesInput.stem _) => ngens
   | some (NamesInput.list l) => l.length
   | none => 0)
  + (match index_set with
     | some iset => iset.length
     | none =>
        match names with
        | some (NamesInput.stem _) => ngens
        | some (NamesInput.list l) => l.length
        | none => 0)

/-- Iteration count of the whole constructor: the display-label loop
`range(ngens)` of the default branch, the standardization work, and the
default-weight fill over the generators performed by the base constructor. -/
def abelianInitSteps (args : BuildArgs) : Nat :=
  (if args.names = none ∧ args.index_set = none then args.ngens else 0)
  + standardizeSteps (defaultNameStep args).1 args.index_set args.ngens
  + (match standardize_names_index_set (defaultNameStep args).1 args.index_set
        args.ngens with
     | Except.ok p => p.1.length
     | Except.error _ => 0)

/-- The object built by `Abelian(QQ)` with all defaults, used as a concrete
instance in witnesses. -/
def sampleState : LCAState :=
  GradedLieConformalAlgebra_init "QQ" [] ["a"] ["a"] none none []
    (some ["a_\x7b0\x7d"])

/-- Helper: expanding a name stem always yields exactly `ngens` names. -/
theorem expandStem_length (s : String) (n : Nat) : (expandStem s n).length = n := by
  unfold expandStem
  split
  · simp [*]
  · simp

/-- Helper: the constructor succeeds exactly when standardization does, and
the constructed object is the base-constructor record over the standardized
names/index set, the empty dict, and the display labels of the default
branch. -/
theorem init_ok_iff (args : BuildArgs) (s : LCAState) :
    AbelianLieConformalAlgebra_init args = Except.ok s ↔
      ∃ ns iset,
        standardize_names_index_set (defaultNameStep args).1 args.index_set args.ngens
          = Except.ok (ns, iset) ∧
        s = GradedLieConformalAlgebra_init args.R [] ns iset args.weights args.parity []
              (defaultNameStep args).2 := by
  unfold AbelianLieConformalAlgebra_init
  cases hstd : standardize_names_index_set (defaultNameStep args).1 args.index_set args.ngens with
  | error e => simp [hstd]
  | ok p =>
      obtain ⟨ns, iset⟩ := p
      simp only [hstd, Except.ok.injEq]
      constructor
      · intro h
        exact ⟨ns, iset, rfl, h.symm⟩
      · rintro ⟨ns1, iset1, heq, h⟩
        cases heq
        exact h.symm

/-- Helper: the constructor fails with `e` exactly when standardization does,
with the same error value. -/
theorem init_error_iff (args : BuildArgs) (e : StdErr) :
    AbelianLieConformalAlgebra_init args = Except.error e ↔
      standardize_names_index_set (defaultNameStep args).1 args.index_set args.ngens
        = Except.error e := by
  unfold AbelianLieConformalAlgebra_init
  cases hstd : standardize_names_index_set (defaultNameStep args).1 args.index_set args.ngens with
  | error e2 => simp [hstd]
  | ok p =>
      obtain ⟨ns, iset⟩ := p
      simp [hstd]

/-- Helper: successful standardization returns exactly `ngens` names and
`ngens` indices. -/
theorem std_ok_lengths (names : Option NamesInput) (index_set : Option (List String))
    (ngens : Nat) (ns iset : List String)
    (h : standardize_names_index_set names index_set ngens = Except.ok (ns, iset)) :
    ns.length = ngens ∧ iset.length = ngens := by
  cases names with
  | none =>
      cases index_set with
      | none => exact absurd h (by simp [standardize_names_index_set])
      | some is =>
          simp only [standardize_names_index_set] at h
          split at h
          · exact absurd h (by simp)
          · rename_i hc
            simp only [Bool.or_eq_true, decide_eq_true_eq, ne_eq, not_or, not_not,
              Bool.not_eq_true] at hc
            simp only [Except.ok.injEq, Prod.mk.injEq] at h
            obtain ⟨h1, h2⟩ := h
            subst h1; subst h2
            exact ⟨hc.1, hc.1⟩
  | some ni =>
      cases ni with
      | stem s =>
          cases index_set with
          | none =>
              simp only [standardize_names_index_set] at h
              simp only [Except.ok.injEq, Prod.mk.injEq] at h
              obtain ⟨h1, h2⟩ := h
              subst h1; subst h2
              simp [expandStem_length]
          | some is =>
              simp only [standardize_names_index_set] at h
              split at h
              · exact absurd h (by simp)
              · rename_i hc
                simp only [Bool.or_eq_true, decide_eq_true_eq, ne_eq, not_or, not_not,
                  Bool.not_eq_true] at hc
                simp only [Except.ok.injEq, Prod.mk.injEq] at h
                obtain ⟨h1, h2⟩ := h
                subst h1; subst h2
                refine ⟨expandStem_length s ngens, ?_⟩
                rw [hc.1, expandStem_length]
      | list l =>
          cases index_set with
          | none =>
              simp only [standardize_names_index_set] at h
              split at h
              · exact absurd h (by simp)
              · rename_i hc
                simp only [Bool.or_eq_true, decide_eq_true_eq, ne_eq, not_or, not_not,
                  Bool.not_eq_true] at hc
                simp only [Except.ok.injEq, Prod.mk.injEq] at h
                obtain ⟨h1, h2⟩ := h
                subst h1; subst h2
                exact ⟨hc.1, hc.1⟩
          | some is =>
              simp only [standardize_names_index_set] at h
              split at h
              · exact absurd h (by simp)
              · rename_i hc
                simp only [Bool.or_eq_true, decide_eq_true_eq, ne_eq, not_or, not_not,
                  Bool.not_eq_true] at hc
                split at h
                · exact absurd h (by simp)
                · rename_i hc2
                  simp only [Bool.or_eq_true, decide_eq_true_eq, ne_eq, not_or, not_not,
                    Bool.not_eq_true] at hc2
                  simp only [Except.ok.injEq, Prod.mk.injEq] at h
                  obtain ⟨h1, h2⟩ := h
                  subst h1; subst h2
                  exact ⟨hc.1, hc2.1.trans hc.1⟩

/-- Helper: the fields of any successfully constructed object. -/
theorem init_ok_spec (args : BuildArgs) (s : LCAState)
    (h : AbelianLieConformalAlgebra_init args = Except.ok s) :
    s.baseRing = args.R ∧ s.scTable = [] ∧ s.centralElts = [] ∧
    s.latexNames = (defaultNameStep args).2 ∧ s.gens.length = args.ngens ∧
    s.indexSet.length = args.ngens ∧ s.parity = args.parity ∧
    (args.weights = none → s.weights = List.replicate args.ngens 1) ∧
    (∀ w, args.weights = some w → s.weights = w) := by
  obtain ⟨ns, iset, hstd, rfl⟩ := (init_ok_iff args s).mp h
  obtain ⟨hlen1, hlen2⟩ := std_ok_lengths _ _ _ _ _ hstd
  unfold GradedLieConformalAlgebra_init
  refine ⟨rfl, rfl, rfl, rfl, hlen1, hlen2, rfl, ?_, ?_⟩
  · intro hw; simp [hw, hlen1]
  · intro w hw; simp [hw]

/-- Helper: when the supplied names are an explicit tuple, successful
standardization forces the tuple length to equal `ngens`. -/
theorem std_list_ok_length (l : List String) (index_set : Option (List String))
    (ngens : Nat) (p : List String × List String)
    (h : standardize_names_index_set (some (NamesInput.list l)) index_set ngens
      = Except.ok p) :
    l.length = ngens := by
  simp only [standardize_names_index_set] at h
  split at h
  · exact absurd h (by simp)
  · rename_i hc
    simp only [Bool.or_eq_true, decide_eq_true_eq, ne_eq, not_or, not_not,
      Bool.not_eq_true] at hc
    exact hc.1

/-- Helper: on any successful run the standardization work is at most two
passes of `ngens` items. -/
theorem standardizeSteps_le (names : Option NamesInput)
    (index_set : Option (List String)) (ngens : Nat)
    (p : List String × List String)
    (h : standardize_names_index_set names index_set ngens = Except.ok p) :
    standardizeSteps names index_set ngens ≤ 2 * ngens := by
  cases names with
  | none =>
      cases index_set with
      | none =>
          show 0 + 0 ≤ 2 * ngens
          omega
      | some is =>
          simp only [standardize_names_index_set] at h
          split at h
          · exact absurd h (by simp)
          · rename_i hc
            simp only [Bool.or_eq_true, decide_eq_true_eq, ne_eq, not_or, not_not,
              Bool.not_eq_true] at hc
            show 0 + is.length ≤ 2 * ngens
            omega
  | some ni =>
      cases ni with
      | stem s =>
          cases index_set with
          | none =>
              show ngens + ngens ≤ 2 * ngens
              omega
          | some is =>
              simp only [standardize_names_index_set] at h
              split at h
              · exact absurd h (by simp)
              · rename_i hc
                simp only [Bool.or_eq_true, decide_eq_true_eq, ne_eq, not_or, not_not,
                  Bool.not_eq_true] at hc
                have hlen : is.length = ngens := by rw [hc.1, expandStem_length]
                show ngens + is.length ≤ 2 * ngens
                omega
      | list l =>
          have hl := std_list_ok_length l index_set ngens p h
          cases index_set with
          | none =>
              show l.length + l.length ≤ 2 * ngens
              omega
          | some is =>
              simp only [standardize_names_index_set] at h
              split at h
              · exact absurd h (by simp)
              · rename_i hc
                split at h
                · exact absurd h (by simp)
                · rename_i hc2
                  simp only [Bool.or_eq_true, decide_eq_true_eq, ne_eq, not_or,
                    not_not, Bool.not_eq_true] at hc2
                  have hlen : is.length = ngens := hc2.1.trans hl
                  show l.length + is.length ≤ 2 * ngens
                  omega

/-- C1: for every valid construction, regardless of `ngens`, `weights` and
`parity`, the structure-constant table handed to the base constructor is the
empty mapping, and on the resulting object `structure_coefficients()` is the
empty mapping and `central_elements()` is the empty family. -/
theorem abelian_structure_coefficients_empty (args : BuildArgs) (s : LCAState)
    (h : AbelianLieConformalAlgebra_init args = Except.ok s) :
    s.scTable = [] ∧ structure_coefficients s = [] ∧ central_elements s = [] := by
  have hs := init_ok_spec args s h
  exact ⟨hs.2.1, by simp [structure_coefficients, hs.2.1],
    by simp [central_elements, hs.2.2.1]⟩

/-- C1 witness: the default construction over `QQ`. -/
theorem abelian_structure_coefficients_empty_witness :
    sampleState.scTable = [] ∧ structure_coefficients sampleState = [] ∧
      central_elements sampleState = [] :=
  abelian_structure_coefficients_empty { R := "QQ" } sampleState rfl

/-- C2: on every structure returned by the builder, for every pair of
generators and all non-negative derivative orders `m`, `n`, the bracket
`bracket(T^m a, T^n b)` is the zero element (the empty expansion). -/
theorem abelian_bracket_zero (args : BuildArgs) (s : LCAState)
    (h : AbelianLieConformalAlgebra_init args = Except.ok s)
    (m n : Nat) (a b : String) :
    bracket s m a n b = [] := by
  have hs := init_ok_spec args s h
  simp [bracket, lookupPair, hs.2.1]

/-- C2 witness: `bracket(T^2 a, T^3 a)` on the default construction. -/
theorem abelian_bracket_zero_witness :
    bracket sampleState 2 "a" 3 "a" = [] :=
  abelian_bracket_zero { R := "QQ" } sampleState rfl 2 3 "a" "a"

/-- C3: construction fails with error `e` exactly when the standardization
collaborator fails with `e` — the error propagates unchanged and no structure
is constructed — and every such error is an
`InconsistentGeneratorSpecification`; no other failure mode originates in
this component. -/
theorem abelian_init_error_iff_standardize (args : BuildArgs) (e : StdErr) :
    (AbelianLieConformalAlgebra_init args = Except.error e ↔
      standardize_names_index_set (defaultNameStep args).1 args.index_set args.ngens
        = Except.error e) ∧
    (AbelianLieConformalAlgebra_init args = Except.error e →
      ∃ msg, e = StdErr.inconsistent msg) := by
  refine ⟨init_error_iff args e, fun _ => ?_⟩
  cases e with
  | inconsistent m => exact ⟨m, rfl⟩

/-- C3 witness: three requested generators against a two-name tuple raise the
inconsistency error, which the builder surfaces unchanged. -/
theorem abelian_init_error_iff_standardize_witness :
    AbelianLieConformalAlgebra_init
      { R := "QQ", ngens := 3, names := some (NamesInput.list ["x", "y"]) }
      = Except.error (StdErr.inconsistent
          "the number of names must equal the number of generators") :=
  (abelian_init_error_iff_standardize
    { R := "QQ", ngens := 3, names := some (NamesInput.list ["x", "y"]) }
    (StdErr.inconsistent
      "the number of names must equal the number of generators")).1.mpr rfl

/-- C4: exactly when `names` and `index_set` are both absent, the builder
synthesizes the fixed stem `a` together with `ngens` display labels of the
form `a_\x7bi\x7d` for `i` in `0 .. ngens-1` and feeds that stem to
standardization; and the label list is stored unchanged on every successfully
constructed object. -/
theorem abelian_default_names_iff (args : BuildArgs) :
    ((args.names = none ∧ args.index_set = none) ↔
      ((defaultNameStep args).1 = some (NamesInput.stem "a") ∧
       ∃ L, (defaultNameStep args).2 = some L ∧ L.length = args.ngens ∧
         ∀ i (hi : i < L.length),
           L.get ⟨i, hi⟩ = "a_\x7b" ++ toString i ++ "\x7d")) ∧
    (∀ s, AbelianLieConformalAlgebra_init args = Except.ok s →
      s.latexNames = (defaultNameStep args).2) := by
  constructor
  · constructor
    · intro hcond
      unfold defaultNameStep
      rw [if_pos hcond]
      refine ⟨rfl, (List.range args.ngens).map fun i => "a_\x7b" ++ toString i ++ "\x7d",
        rfl, by simp, ?_⟩
      intro i hi
      simp [List.get_eq_getElem]
    · rintro ⟨h1, L, h2, -, -⟩
      by_cases hcond : args.names = none ∧ args.index_set = none
      · exact hcond
      · exfalso
        unfold defaultNameStep at h2
        rw [if_neg hcond] at h2
        cases h2
  · intro s h
    exact (init_ok_spec args s h).2.2.2.1

/-- C4 witness: the default branch at `ngens = 2`. -/
theorem abelian_default_names_iff_witness :
    (defaultNameStep { R := "QQ", ngens := 2 }).1 = some (NamesInput.stem "a") ∧
    ∃ L, (defaultNameStep { R := "QQ", ngens := 2 }).2 = some L ∧
      L.length = 2 ∧ ∀ i (hi : i < L.length),
        L.get ⟨i, hi⟩ = "a_\x7b" ++ toString i ++ "\x7d" :=
  (abelian_default_names_iff { R := "QQ", ngens := 2 }).1.mp ⟨rfl, rfl⟩

/-- C5: for every `ngens ≥ 1`, constructing with all other arguments at their
defaults yields a structure with exactly `ngens` generators, each of the
default weight 1, and with no parity assignment. -/
theorem abelian_default_build (R : String) (n : Nat) (hn : 1 ≤ n) :
    ∃ s, AbelianLieConformalAlgebra_init { R := R, ngens := n } = Except.ok s ∧
      s.gens.length = n ∧ s.weights = List.replicate n 1 ∧ s.parity = none := by
  refine ⟨GradedLieConformalAlgebra_init R [] (expandStem "a" n) (expandStem "a" n)
    none none [] (some ((List.range n).map fun i => "a_\x7b" ++ toString i ++ "\x7d")),
    rfl, ?_, ?_, rfl⟩
  · exact expandStem_length "a" n
  · simp [GradedLieConformalAlgebra_init, expandStem_length]

/-- C5 witness: the default construction at `ngens = 3`. -/
theorem abelian_default_build_witness :
    ∃ s, AbelianLieConformalAlgebra_init { R := "Rational Field", ngens := 3 }
        = Except.ok s ∧
      s.gens.length = 3 ∧ s.weights = List.replicate 3 1 ∧ s.parity = none :=
  abelian_default_build "Rational Field" 3 (by decide)

/-- C6: the textual representation of any constructed structure is exactly
the fixed prefix, the ordered generator tuple, and the base ring textual
form; at `ngens = 2` with default naming it shows exactly the two labels
`a0`, `a1` in construction order followed by the base ring. -/
theorem abelian_repr_form :
    (∀ args s, AbelianLieConformalAlgebra_init args = Except.ok s →
      AbelianLieConformalAlgebra_repr s =
        "The Abelian Lie conformal algebra with generators " ++ pyTupleRepr s.gens
          ++ " over " ++ s.baseRing) ∧
    (∀ R, ∃ s,
      AbelianLieConformalAlgebra_init { R := R, ngens := 2 } = Except.ok s ∧
      s.gens = ["a0", "a1"] ∧
      AbelianLieConformalAlgebra_repr s =
        "The Abelian Lie conformal algebra with generators (a0, a1) over " ++ R) := by
  constructor
  · intro args s _
    rfl
  · intro R
    refine ⟨GradedLieConformalAlgebra_init R [] ["a0", "a1"] ["a0", "a1"] none none []
      (some ["a_\x7b0\x7d", "a_\x7b1\x7d"]), ?_, rfl, rfl⟩
    rfl

/-- C6 witness: the representation over the rational field, matching the
doctest in the source. -/
theorem abelian_repr_form_witness :
    ∃ s, AbelianLieConformalAlgebra_init { R := "Rational Field", ngens := 2 }
        = Except.ok s ∧
      s.gens = ["a0", "a1"] ∧
      AbelianLieConformalAlgebra_repr s =
        "The Abelian Lie conformal algebra with generators (a0, a1) over "
          ++ "Rational Field" :=
  abelian_repr_form.2 "Rational Field"

/-- C7: construction is deterministic — two invocations with identical
arguments give results with equal generator sets, equal (empty)
structure-coefficient tables, and equal weight and parity assignments. -/
theorem abelian_init_deterministic (args : BuildArgs) :
    AbelianLieConformalAlgebra_init args = AbelianLieConformalAlgebra_init args ∧
    ∀ s t, AbelianLieConformalAlgebra_init args = Except.ok s →
      AbelianLieConformalAlgebra_init args = Except.ok t →
      s.gens = t.gens ∧ s.scTable = t.scTable ∧ s.weights = t.weights ∧
        s.parity = t.parity := by
  refine ⟨rfl, fun s t hs ht => ?_⟩
  rw [hs] at ht
  injection ht with hst
  subst hst
  exact ⟨rfl, rfl, rfl, rfl⟩

/-- C7 witness: two default constructions over `QQ` agree field by field. -/
theorem abelian_init_deterministic_witness :
    sampleState.gens = sampleState.gens ∧
    sampleState.scTable = sampleState.scTable ∧
    sampleState.weights = sampleState.weights ∧
    sampleState.parity = sampleState.parity :=
  (abelian_init_deterministic { R := "QQ" }).2 sampleState sampleState rfl rfl

/-- C8: construction leaves the ambient program state unchanged and returns a
value determined by the arguments alone; the stored display-label list is
inert for every non-display observation of the object
(structure coefficients, central elements, generators, brackets). -/
theorem abelian_init_frame (σ : Type) (g : σ) (args : BuildArgs) :
    (AbelianLieConformalAlgebra_init_withState σ g args).1 = g ∧
    (AbelianLieConformalAlgebra_init_withState σ g args).2
      = AbelianLieConformalAlgebra_init args ∧
    ∀ s L, AbelianLieConformalAlgebra_init args = Except.ok s →
      structure_coefficients { s with latexNames := L }
          = structure_coefficients s ∧
      central_elements { s with latexNames := L } = central_elements s ∧
      LCAState.gens { s with latexNames := L } = s.gens ∧
      ∀ m a n b, bracket { s with latexNames := L } m a n b = bracket s m a n b :=
  ⟨rfl, rfl, fun s L _ => ⟨rfl, rfl, rfl, fun m a n b => rfl⟩⟩

/-- C8 witness: erasing the display labels of the default construction
changes no non-display observation. -/
theorem abelian_init_frame_witness :
    structure_coefficients { sampleState with latexNames := none }
        = structure_coefficients sampleState ∧
    central_elements { sampleState with latexNames := none }
        = central_elements sampleState ∧
    LCAState.gens { sampleState with latexNames := none } = sampleState.gens ∧
    bracket { sampleState with latexNames := none } 1 "a" 2 "a"
        = bracket sampleState 1 "a" 2 "a" := by
  have h := (abelian_init_frame Unit () { R := "QQ" }).2.2 sampleState none rfl
  exact ⟨h.1, h.2.1, h.2.2.1, h.2.2.2 1 "a" 2 "a"⟩

/-- C9: construction is a total computation whose iteration count is linear
in `ngens` on every successful run, and the constructed object holds exactly
`ngens` generators. -/
theorem abelian_init_cost_bounded (args : BuildArgs) (s : LCAState)
    (h : AbelianLieConformalAlgebra_init args = Except.ok s) :
    abelianInitSteps args ≤ 4 * args.ngens ∧ s.gens.length = args.ngens := by
  obtain ⟨ns, iset, hstd, rfl⟩ := (init_ok_iff args s).mp h
  obtain ⟨h1, h2⟩ := std_ok_lengths _ _ _ _ _ hstd
  constructor
  · unfold abelianInitSteps
    rw [hstd]
    have hsteps := standardizeSteps_le _ _ _ _ hstd
    have hfirst : (if args.names = none ∧ args.index_set = none
        then args.ngens else 0) ≤ args.ngens := by
      split <;> omega
    simp only []
    omega
  · simpa [GradedLieConformalAlgebra_init] using h1

/-- C9 witness: the default construction over `QQ` costs at most `4 · 1`
steps and has one generator. -/
theorem abelian_init_cost_bounded_witness :
    abelianInitSteps { R := "QQ" } ≤ 4 * 1 ∧ sampleState.gens.length = 1 :=
  abelian_init_cost_bounded { R := "QQ" } sampleState rfl

/-- C10: the builder never checks that `ngens` is positive: at `ngens = 0`
with `names` and `index_set` both absent, the default branch produces an
empty display-label sequence and the delegated construction completes with
no error raised in this component. -/
theorem abelian_init_ngens_zero :
    ∃ s, AbelianLieConformalAlgebra_init { R := "Rational Field", ngens := 0 }
        = Except.ok s ∧
      s.latexNames = some [] ∧ s.gens = [] ∧ s.weights = [] := by
  refine ⟨GradedLieConformalAlgebra_init "Rational Field" [] [] [] none none []
    (some []), ?_, rfl, rfl, rfl⟩
  rfl
